import Mathlib

/-!
Verification of the otoken repository: a shallow embedding of the token
cache (pkg/tokenstore), the refresh engine (pkg/refresher), the device
authorization flow (pkg/devauth) and the native-app flow (pkg/appauth),
with theorems checking the natural-language specification against the code.

Time is modelled as `Int` seconds.  External collaborators (HTTP transport,
JSON decoding, the oauth2 library's refresh grant, oauth2cli's local server)
are inputs to the embedded functions, matching the spec's interface view.
-/

namespace OToken

/-- oauth2.Token: accessToken, tokenType, refreshToken and expiry.
`expiry = none` models Go's zero time (no expiry). -/
structure Token where
  accessToken : String
  tokenType : String
  refreshToken : String
  expiry : Option Int
deriving DecidableEq, Repr

/-- The oauth2 library's expiryDelta (10 seconds): the safety skew
subtracted from the expiry when checking validity. -/
def expiryDelta : Int := 10

/-- oauth2 Token.expired: false when the expiry is the zero time, else
true when expiry - expiryDelta is before now. -/
def tokenExpired (t : Token) (now : Int) : Bool :=
  match t.expiry with
  | none => false
  | some e => decide (e - expiryDelta < now)

/-- oauth2 Token.Valid: nil-safe; a token is valid when it is non-nil, its
access token is non-empty and it has not expired. -/
def tokenValid (t : Option Token) (now : Int) : Bool :=
  match t with
  | none => false
  | some tk => decide (tk.accessToken ≠ "") && !tokenExpired tk now

/-- MemStore.Token (tokenstore.go lines 25-32): returns the held token when
it is non-nil and valid, else returns (nil, nil). -/
def memStoreToken (stored : Option Token) (now : Int) : Option Token × Option String :=
  if stored.isSome && tokenValid stored now then (stored, none) else (none, none)

/-- Result of a Go function returning (*oauth2.Token, error), plus a
constructor for a nil-pointer-dereference panic. -/
inductive Outcome where
  | ret : Option Token → Option String → Outcome
  | nilPanic : Outcome
deriving DecidableEq, Repr

/-- The observable effects of one CachedTokenSource.Token call: the
arguments of every Store.Save call, and how many times the refresher and
the primary source were invoked. -/
structure CacheEffects where
  saves : List Token
  refreshCalls : Nat
  srcCalls : Nat
deriving DecidableEq, Repr

/-- The deferred closure at tokenstore.go lines 85-90: at return time it
calls Store.Save(token) when err is non-nil and token is valid. -/
def deferredSave (token : Option Token) (err : Option String) (now : Int) : List Token :=
  if err.isSome && tokenValid token now then token.toList else []

/-- Lines 103-107 of tokenstore.go: the primary-source fallthrough.  The
`token`/`err` arguments are the values the deferred closure observes when
Src is nil (the literal `return nil, errors.New(...)` does not reassign
the local variables the closure captured). -/
def cachedTail (src : Option (Option Token × Option String)) (now : Int)
    (token : Option Token) (err : Option String) (refreshCalls : Nat) :
    Outcome × CacheEffects :=
  match src with
  | some (ts, es) => (.ret ts es, ⟨deferredSave ts es now, refreshCalls, 1⟩)
  | none => (.ret none (some "No valid token and token source found"),
             ⟨deferredSave token err now, refreshCalls, 0⟩)

/-- CachedTokenSource.Token (tokenstore.go lines 80-108).
`storeRes` is the result of c.Store.Token(); `refresher` is the configured
refresher (its function maps a refresh token to the Refresh result);
`src` is the result c.Src.Token() would produce, with `none` meaning no
primary source is configured.  Reading `token.RefreshToken` on a nil token
(line 96) is a nil dereference, modelled as `Outcome.nilPanic`; Go's
boolean short-circuit evaluates that field access before the
`c.Refresher != nil` test, so the dereference happens even when no
refresher is configured. -/
def cachedToken (storeRes : Option Token × Option String)
    (refresher : Option (String → Option Token × Option String))
    (src : Option (Option Token × Option String)) (now : Int) :
    Outcome × CacheEffects :=
  match storeRes with
  | (token, none) =>
    if tokenValid token now then (.ret token none, ⟨[], 0, 0⟩)
    else
      match token with
      | none => (.nilPanic, ⟨[], 0, 0⟩)
      | some t =>
        match refresher with
        | some rf =>
          if t.refreshToken ≠ "" then
            match rf t.refreshToken with
            | (t2, none) => (.ret t2 none, ⟨[], 1, 0⟩)
            | (t2, some e2) => cachedTail src now t2 (some e2) 1
          else
            cachedTail src now (some t) none 0
        | none => cachedTail src now (some t) none 0
  | (token, some e) => cachedTail src now token (some e) 0

/-- A token whose access token is non-empty and that never expires. -/
def freshToken : Token := ⟨"new-access", "Bearer", "r2", none⟩

/-- A token that is long expired at time 1000 but carries a refresh token. -/
def staleToken : Token := ⟨"old-access", "Bearer", "r1", some 0⟩

/-- C8: a Store holding a currently valid token makes Token() return that
token unchanged with no refresher call, no primary-source call and no
Store.Save. -/
theorem cachedToken_validToken_frame (t : Token) (now : Int)
    (refresher : Option (String → Option Token × Option String))
    (src : Option (Option Token × Option String))
    (h : tokenValid (some t) now = true) :
    cachedToken (some t, none) refresher src now
      = (.ret (some t) none, ⟨[], 0, 0⟩) := by
  simp [cachedToken, h]

/-- Witness for C8 at a concrete always-valid token. -/
theorem cachedToken_validToken_frame_witness :
    cachedToken (some ⟨"a", "Bearer", "", none⟩, none) none none 0
      = (.ret (some ⟨"a", "Bearer", "", none⟩) none, ⟨[], 0, 0⟩) :=
  cachedToken_validToken_frame ⟨"a", "Bearer", "", none⟩ 0 none none (by decide)

/-- C3: a Store whose Token() returns (nil, nil) — as MemStore does when it
holds no valid token — drives CachedTokenSource.Token into the nil
dereference at the refresh-token field access, for every refresher and
primary-source configuration. -/
theorem cachedToken_nilStore_panics
    (refresher : Option (String → Option Token × Option String))
    (src : Option (Option Token × Option String)) (now : Int) :
    memStoreToken none now = (none, none)
      ∧ (cachedToken (memStoreToken none now) refresher src now).1
          = .nilPanic := by
  constructor
  · rfl
  · rfl

/-- C1: on both success paths that obtain a new token — a successful
refresh of a stale stored token, and a successful primary-source fetch —
the code performs zero Store.Save calls, because the deferred save at
tokenstore.go line 86 requires err != nil.  Evaluated at concrete inputs:
first a store holding an expired token with refresh token "r1" and a
refresher that succeeds, then an erroring store with a primary source that
succeeds. -/
theorem cachedToken_successPaths_no_save :
    cachedToken (some staleToken, none)
        (some (fun _ => (some freshToken, none))) none 1000
      = (.ret (some freshToken) none, ⟨[], 1, 0⟩)
    ∧ cachedToken (none, some "read error") none
        (some (some freshToken, none)) 1000
      = (.ret (some freshToken) none, ⟨[], 0, 1⟩) := by
  constructor
  · rfl
  · rfl

/-- TokenRefresher.Refresh (pkg/refresher): fails before any network
activity when the refresh token is empty, else performs exactly one
refresh-token grant at the token endpoint.  `exchange` stands for the
oauth2 library call cfg.TokenSource(ctx, currentToken).Token(); the Nat in
the result counts the network exchanges performed. -/
def tokenRefresherRefresh (refreshToken : String)
    (exchange : String → Option Token × Option String) :
    (Option Token × Option String) × Nat :=
  if refreshToken = "" then ((none, some "no refresh token provided"), 0)
  else (exchange refreshToken, 1)

/-- The refresher-backed TokenSource.Token: checks for an empty stored
refresh token, performs the refresh grant otherwise, and rotates the
stored refresh token when the response carries a new one.  The result is
(the returned pair, the network-call count, the refresh token stored
after the call). -/
def refresherTokenSourceToken (storedRefreshToken : String)
    (exchange : String → Option Token × Option String) :
    (Option Token × Option String) × Nat × String :=
  if storedRefreshToken = "" then
    ((none, some "no refresh token provided"), 0, storedRefreshToken)
  else
    match exchange storedRefreshToken with
    | (token, err) =>
      let rotated :=
        match token with
        | some t => if t.refreshToken ≠ "" then t.refreshToken else storedRefreshToken
        | none => storedRefreshToken
      ((token, err), 1, rotated)

/-- C9: an empty refresh token makes Refresh fail with the validation
error and zero network calls, for every possible exchange behavior; the
refresher-backed TokenSource behaves the same on an empty stored refresh
token, and does not rotate anything. -/
theorem refresh_emptyToken_noNetwork
    (exchange : String → Option Token × Option String) :
    tokenRefresherRefresh "" exchange
        = ((none, some "no refresh token provided"), 0)
    ∧ refresherTokenSourceToken "" exchange
        = ((none, some "no refresh token provided"), 0, "") := by
  constructor
  · rfl
  · rfl

/-- go-oidc's ScopeOpenID constant. -/
def ScopeOpenID : String := "openid"

/-- openid.EnsureOpenIDScope: returns the scopes unchanged when "openid"
is already present, else appends it. -/
def ensureOpenIDScope (scopes : List String) : List String :=
  if ScopeOpenID ∈ scopes then scopes else scopes ++ [ScopeOpenID]

/-- devauth deviceCodeResponse: the parsed body of the device
authorization endpoint response (rfc8628 section 3.2).  Durations are in
seconds. -/
structure DeviceCodeResponse where
  userCode : String
  verificationURI : String
  verificationURIComplete : String
  deviceCode : String
  expiresIn : Int
  interval : Int
deriving DecidableEq, Repr

/-- devauth UserCodeURI: the user-facing value returned by RequestCode.
It has no device-code field. -/
structure UserCodeURI where
  userCode : String
  verificationURI : String
  verificationURIComplete : String
deriving DecidableEq, Repr

/-- devauth Authorizor: endpoints, client id, scopes and the stored device
code response. -/
structure Authorizor where
  tokenEndpoint : String
  authEndpoint : String
  clientID : String
  scopes : List String
  authResp : Option DeviceCodeResponse
deriving DecidableEq, Repr

/-- devauth.New: constructs an Authorizor, normalizing the scopes with
ensureOpenIDScope. -/
def devauthNew (tokenEndpoint authEndpoint clientID : String)
    (scopes : List String) : Authorizor :=
  ⟨tokenEndpoint, authEndpoint, clientID, ensureOpenIDScope scopes, none⟩

/-- Outcome of decoding an HTTP response body. -/
inductive DecodeResult (α : Type) where
  | fail : String → DecodeResult α
  | ok : α → DecodeResult α
deriving DecidableEq, Repr

/-- Result of one HTTP round trip: a transport error, or a status code
together with the decode outcome of the body. -/
inductive HTTPResult (α : Type) where
  | transportErr : String → HTTPResult α
  | response : Nat → DecodeResult α → HTTPResult α
deriving DecidableEq, Repr

/-- Authorizor.RequestCode: POSTs to the device authorization endpoint
(the HTTP call and JSON decode are external, summarized by `res`),
requires status 200, a decodable body with non-empty device_code,
user_code and verification_uri and a positive expires_in, defaults a zero
interval to 5 seconds, stores the response on the receiver and returns
the user-facing UserCodeURI.  The result is (updated receiver,
(UserCodeURI, error)). -/
def requestCode (a : Authorizor) (res : HTTPResult DeviceCodeResponse) :
    Authorizor × (Option UserCodeURI × Option String) :=
  match res with
  | .transportErr e => (a, (none, some e))
  | .response status body =>
    if status ≠ 200 then
      (a, (none, some "failed to request device code"))
    else
      match body with
      | .fail e => (a, (none, some e))
      | .ok data =>
        if data.deviceCode = "" ∨ data.userCode = "" ∨ data.verificationURI = ""
            ∨ data.expiresIn ≤ 0 then
          (a, (none, some "not a valid device code response"))
        else
          let stored := if data.interval = 0 then { data with interval := 5 } else data
          ({ a with authResp := some stored },
           (some ⟨stored.userCode, stored.verificationURI, stored.verificationURIComplete⟩,
            none))

/-- appauth TokenSource: the configuration fields of the native-app flow
source (capability fields like the HTTP client, prompter and opener are
external collaborators and not part of the value). -/
structure AppTokenSource where
  authEndpoint : String
  tokenEndpoint : String
  clientID : String
  scopes : List String
  clientSecret : String
  usePKCE : Bool
  timeout : Int
  redirectHostname : String
deriving DecidableEq, Repr

/-- appauth.NewPKCE: public-client constructor; normalizes scopes, enables
PKCE, defaults the redirect hostname to 127.0.0.1 and leaves the timeout
unset. -/
def appauthNewPKCE (authEndpoint tokenEndpoint clientID : String)
    (scopes : List String) : AppTokenSource :=
  { authEndpoint := authEndpoint
    tokenEndpoint := tokenEndpoint
    clientID := clientID
    scopes := ensureOpenIDScope scopes
    clientSecret := ""
    usePKCE := true
    timeout := 0
    redirectHostname := "127.0.0.1" }

/-- appauth.NewImplicit: confidential-client constructor; normalizes
scopes, no PKCE, same defaults as NewPKCE. -/
def appauthNewImplicit (authEndpoint tokenEndpoint clientID clientSecret : String)
    (scopes : List String) : AppTokenSource :=
  { authEndpoint := authEndpoint
    tokenEndpoint := tokenEndpoint
    clientID := clientID
    scopes := ensureOpenIDScope scopes
    clientSecret := clientSecret
    usePKCE := false
    timeout := 0
    redirectHostname := "127.0.0.1" }

/-- C10: every constructed source's scope list contains "openid"; the
normalization appends "openid" exactly when absent and otherwise returns
the input unchanged; all three constructors store the normalized list; and
RequestCode — the only state-mutating operation — never changes the
stored scopes. -/
theorem scopes_openid_invariant (scopes : List String)
    (te ae cid cs : String) :
    ScopeOpenID ∈ ensureOpenIDScope scopes
    ∧ ensureOpenIDScope scopes
        = (if ScopeOpenID ∈ scopes then scopes else scopes ++ [ScopeOpenID])
    ∧ (devauthNew te ae cid scopes).scopes = ensureOpenIDScope scopes
    ∧ (appauthNewPKCE ae te cid scopes).scopes = ensureOpenIDScope scopes
    ∧ (appauthNewImplicit ae te cid cs scopes).scopes = ensureOpenIDScope scopes
    ∧ (∀ (a : Authorizor) (res : HTTPResult DeviceCodeResponse),
        ((requestCode a res).1).scopes = a.scopes) := by
  refine ⟨?_, rfl, rfl, rfl, rfl, ?_⟩
  · by_cases h : ScopeOpenID ∈ scopes
    · simp [ensureOpenIDScope, h]
    · simp [ensureOpenIDScope, h]
  · intro a res
    rcases res with e | ⟨status, body⟩
    · rfl
    · by_cases hst : status ≠ 200
      · rcases body with e | data <;> simp [requestCode, hst]
      · rcases body with e | data
        · simp [requestCode, hst]
        · simp only [requestCode, hst, if_false, ite_not]
          split <;> simp

/-- appauth TokenSource.Token (appauth.go lines 155-219).  `pkceGenErr`
is the error of oauth2params.NewPKCE when PKCE is enabled; `exchangeRes`
is the pair oauth2cli.GetToken returns into the shared `token`/`err`
variables.  The function returns early on a PKCE generation failure;
otherwise it runs the two goroutines, logs (and drops) any error
collected by eg.Wait, and returns `token, nil` — so the exchange result's
error is never propagated. -/
def appTokenSourceToken (s : AppTokenSource) (pkceGenErr : Option String)
    (exchangeRes : Option Token × Option String) :
    Option Token × Option String :=
  if s.usePKCE && pkceGenErr.isSome then (none, pkceGenErr)
  else (exchangeRes.1, none)

/-- C2: when the code-exchange task fails (oauth2cli.GetToken returns an
error and a nil token), the app-flow Token() still returns with a nil
error: the result is the nil token paired with nil error, violating the
claimed contract.  Evaluated at a concrete PKCE source. -/
theorem appToken_exchangeFailure_nilNil :
    appTokenSourceToken (appauthNewPKCE "https://a" "https://t" "cid" []) none
        (none, some "could not get a token: connection refused")
      = (none, none) := by
  rfl

/-- What the local-server ready channel does during one call, as seen by
the direct-user goroutine: a URL value arrives, the channel is closed
without a value, or nothing ever happens on it. -/
inductive ReadySignal where
  | value : String → ReadySignal
  | closed : ReadySignal
  | never : ReadySignal
deriving DecidableEq, Repr

/-- One execution environment of appauth Token(): the exchange task's
error (none = success), the ready-channel behavior, and whether the
optional overall timeout elapses during the call. -/
structure AppFlowRun where
  exchangeErr : Option String
  ready : ReadySignal
  timeoutFires : Bool
deriving DecidableEq, Repr

/-- The cancellation sources of the shared context in appauth Token():
from lines 183-191 the context is Background, optionally wrapped in
WithTimeout; the errgroup at line 193 is a plain errgroup.Group (not
errgroup.WithContext), so a task failure contributes no cancellation. -/
def sharedCtxCancelled (s : AppTokenSource) (run : AppFlowRun) : Bool :=
  decide (0 < s.timeout) && run.timeoutFires

/-- How the direct-user goroutine (appauth.go lines 195-206) ends: it
invoked the opener with the URL and returned nil; it saw the channel
close and returned nil without opening; it saw the context end and
returned the cancellation error; or it blocks forever because none of its
select cases ever fires. -/
inductive DirectUserResult where
  | openedURL : String → DirectUserResult
  | closedNoOpen : DirectUserResult
  | cancelled : DirectUserResult
  | blockedForever : DirectUserResult
deriving DecidableEq, Repr

/-- The direct-user goroutine: selects on the ready channel and the shared
context.  A ready value or close completes it; otherwise it completes only
if the shared context is cancelled, which sharedCtxCancelled shows happens
only via the optional timeout. -/
def directUserTask (s : AppTokenSource) (run : AppFlowRun) : DirectUserResult :=
  match run.ready with
  | .value url => .openedURL url
  | .closed => .closedNoOpen
  | .never => if sharedCtxCancelled s run then .cancelled else .blockedForever

/-- Whether the URL-open capability was invoked. -/
def openerInvoked : DirectUserResult → Bool
  | .openedURL _ => true
  | _ => false

/-- Whether the ready channel delivered a URL value. -/
def readyHasValue : ReadySignal → Bool
  | .value _ => true
  | _ => false

/-- C5 counterexample: with no timeout configured, when the exchange task
fails before the listener signals readiness (nothing ever arrives on the
ready channel), the direct-user task is not cancelled — the shared
context is never cancelled and the task blocks forever. -/
theorem directUser_not_cancelled_counterexample :
    directUserTask (appauthNewPKCE "https://a" "https://t" "cid" [])
        ⟨some "could not get a token: bind failed", .never, false⟩
      = .blockedForever
    ∧ DirectUserResult.blockedForever ≠ .cancelled
    ∧ sharedCtxCancelled (appauthNewPKCE "https://a" "https://t" "cid" [])
        ⟨some "could not get a token: bind failed", .never, false⟩ = false := by
  refine ⟨rfl, ?_, rfl⟩
  decide

/-- C5 amended: the exchange task's failure has no effect on the
direct-user task or on the shared context (the errgroup is not
context-linked, so the only cancellation source is the optional caller
timeout), and the URL-open capability is invoked exactly when a URL value
arrives on the ready channel — hence never when the exchange fails before
readiness. -/
theorem appflow_cancellation_amended (s : AppTokenSource)
    (e e' : Option String) (r : ReadySignal) (tf : Bool) :
    directUserTask s ⟨e, r, tf⟩ = directUserTask s ⟨e', r, tf⟩
    ∧ sharedCtxCancelled s ⟨e, r, tf⟩ = sharedCtxCancelled s ⟨e', r, tf⟩
    ∧ openerInvoked (directUserTask s ⟨e, r, tf⟩) = readyHasValue r := by
  refine ⟨rfl, rfl, ?_⟩
  rcases r with url | _ | _
  · rfl
  · rfl
  · simp only [directUserTask]
    split <;> rfl

/-- The parsed body of one token-endpoint response during device-flow
polling: the anonymous struct embedding tokenRaw and tokenErrResponse. -/
structure PollBody where
  accessToken : String
  tokenType : String
  refreshToken : String
  expiresIn : Int
  err : String
  errDescription : String
deriving DecidableEq, Repr

/-- Result of one poll round trip: transport failure, body decode failure,
or a decoded body. -/
inductive PollResult where
  | transport : String → PollResult
  | decodeFail : String → PollResult
  | body : PollBody → PollResult
deriving DecidableEq, Repr

/-- How PollToken ends. -/
inductive PollOutcome where
  | token : Token → PollOutcome
  | timeout : PollOutcome
  | transportErr : String → PollOutcome
  | decodeErr : String → PollOutcome
  | denied : String → PollOutcome
deriving DecidableEq, Repr

/-- Whether a poll response is the authorization_pending continue case. -/
def isPending : PollResult → Bool
  | .body b => decide (b.accessToken = "" ∧ b.err = "authorization_pending")
  | _ => false

/-- The select loop of Authorizor.PollToken (part_003 lines 155-187).
`t0` is the time PollToken was entered, `interval` the stored poll
interval and `dl` the effective context deadline; the k-th ticker tick
fires at t0 + k * interval and the loop polls on a tick that precedes the
deadline;  the context's Done case returns the timeout error.  `resp`
gives the token endpoint's response to the k-th poll.  The result pairs
the outcome with the times of all poll requests issued.  `fuel` bounds the
recursion; pollToken supplies enough for every tick before the deadline
when the interval is at least one second. -/
def pollFrom (t0 interval dl : Int) (resp : Nat → PollResult) :
    Nat → Nat → PollOutcome × List Int
  | _, 0 => (.timeout, [])
  | k, fuel + 1 =>
    let tick := t0 + k * interval
    if dl ≤ tick then (.timeout, [])
    else
      match resp k with
      | .transport e => (.transportErr e, [tick])
      | .decodeFail e => (.decodeErr e, [tick])
      | .body b =>
        if b.accessToken ≠ "" then
          (.token ⟨b.accessToken, b.tokenType, b.refreshToken, some (tick + b.expiresIn)⟩,
           [tick])
        else if b.err ≠ "authorization_pending" then
          (.denied b.errDescription, [tick])
        else
          let r := pollFrom t0 interval dl resp (k + 1) fuel
          (r.1, tick :: r.2)

/-- The effective deadline of the polling context: PollToken wraps the
caller's context in WithTimeout(expiresIn seconds), and Go's WithTimeout
keeps the earlier of the parent deadline and the new one. -/
def pollDeadline (t0 : Int) (callerDl : Option Int) (expiresIn : Int) : Int :=
  match callerDl with
  | none => t0 + expiresIn
  | some c => min (t0 + expiresIn) c

/-- Authorizor.PollToken on the stored device code response `d`, entered
at time `t0` under a caller context whose deadline is `callerDl`. -/
def pollToken (t0 : Int) (callerDl : Option Int) (d : DeviceCodeResponse)
    (resp : Nat → PollResult) : PollOutcome × List Int :=
  let dl := pollDeadline t0 callerDl d.expiresIn
  pollFrom t0 d.interval dl resp 1 ((dl - t0).toNat + 1)

/-- Every poll request the loop issues happens strictly before the
effective deadline. -/
theorem pollFrom_times_lt (t0 interval dl : Int) (resp : Nat → PollResult) :
    ∀ (fuel k : Nat) (x : Int),
      x ∈ (pollFrom t0 interval dl resp k fuel).2 → x < dl := by
  intro fuel
  induction fuel with
  | zero => intro k x hx; simp [pollFrom] at hx
  | succ n ih =>
    intro k x hx
    simp only [pollFrom] at hx
    by_cases hdl : dl ≤ t0 + k * interval
    · simp [hdl] at hx
    · simp only [hdl, if_false] at hx
      rcases hr : resp k with e | e | b <;> simp only [hr] at hx
      · simp at hx; omega
      · simp at hx; omega
      · by_cases hacc : b.accessToken ≠ ""
        · simp [hacc] at hx; omega
        · simp only [hacc, if_false] at hx
          by_cases herr : b.err ≠ "authorization_pending"
          · simp [herr] at hx; omega
          · simp only [herr, if_false, List.mem_cons] at hx
            rcases hx with hx | hx
            · omega
            · exact ih (k + 1) x hx

/-- When the server answers authorization_pending forever, the loop ends
with the timeout outcome, whatever the fuel. -/
theorem pollFrom_pending_timeout (t0 interval dl : Int) (resp : Nat → PollResult)
    (hp : ∀ k, isPending (resp k) = true) :
    ∀ (fuel k : Nat), (pollFrom t0 interval dl resp k fuel).1 = .timeout := by
  intro fuel
  induction fuel with
  | zero => intro k; rfl
  | succ n ih =>
    intro k
    simp only [pollFrom]
    by_cases hdl : dl ≤ t0 + k * interval
    · simp [hdl]
    · simp only [hdl, if_false]
      have hk := hp k
      rcases hr : resp k with e | e | b <;> rw [hr] at hk <;>
        simp [isPending] at hk
      simp [hk.1, hk.2, ih (k + 1)]

/-- C4 amended: the polling loop's deadline is anchored at the time
PollToken is entered — every poll request happens strictly before
t0 + expires_in and, when the caller supplies a tighter deadline, strictly
before that deadline too; and when the deadline arrives before any
success or denial the call ends with the timeout outcome. -/
theorem pollToken_deadline_amended (t0 : Int) (callerDl : Option Int)
    (d : DeviceCodeResponse) (resp : Nat → PollResult) :
    (∀ x ∈ (pollToken t0 callerDl d resp).2,
        x < t0 + d.expiresIn ∧ ∀ c, callerDl = some c → x < c)
    ∧ ((∀ k, isPending (resp k) = true) →
        (pollToken t0 callerDl d resp).1 = .timeout) := by
  constructor
  · intro x hx
    have h := pollFrom_times_lt t0 d.interval (pollDeadline t0 callerDl d.expiresIn)
      resp ((pollDeadline t0 callerDl d.expiresIn - t0).toNat + 1) 1 x hx
    rcases callerDl with _ | c
    · exact ⟨h, by intro c hc; cases hc⟩
    · refine ⟨?_, ?_⟩
      · simp only [pollDeadline] at h; omega
      · intro c' hc'
        injection hc' with hc'
        subst hc'
        simp only [pollDeadline] at h; omega
  · intro hp
    exact pollFrom_pending_timeout t0 d.interval _ resp hp _ 1

/-- C7: RequestCode errors exactly when the HTTP call fails, the status is
not 200, the body does not decode, or the decoded response has an empty
device_code, user_code or verification_uri or a non-positive expires_in;
an error stores no grant on the receiver; and on success a zero interval
is defaulted to 5 seconds and the returned value is exactly the
user-facing triple, which carries no device code. -/
theorem requestCode_validation (a : Authorizor)
    (res : HTTPResult DeviceCodeResponse) :
    ((requestCode a res).2.2.isSome ↔
        match res with
        | .transportErr _ => True
        | .response status body =>
          status ≠ 200 ∨
            match body with
            | .fail _ => True
            | .ok d => d.deviceCode = "" ∨ d.userCode = "" ∨ d.verificationURI = ""
                ∨ d.expiresIn ≤ 0)
    ∧ ((requestCode a res).2.2.isSome → (requestCode a res).1 = a)
    ∧ (∀ d, res = .response 200 (.ok d) →
        d.deviceCode ≠ "" → d.userCode ≠ "" → d.verificationURI ≠ "" →
        0 < d.expiresIn →
          (requestCode a res).1.authResp
              = some { d with interval := if d.interval = 0 then 5 else d.interval }
          ∧ (requestCode a res).2.1
              = some ⟨d.userCode, d.verificationURI, d.verificationURIComplete⟩) := by
  refine ⟨?_, ?_, ?_⟩
  · rcases res with e | ⟨status, body⟩
    · simp [requestCode]
    · by_cases hst : status = 200
      · subst hst
        rcases body with e | data
        · simp [requestCode]
        · by_cases hv : data.deviceCode = "" ∨ data.userCode = ""
              ∨ data.verificationURI = "" ∨ data.expiresIn ≤ 0
          · simp [requestCode, hv]
          · simp [requestCode, hv]
      · rcases body with e | data <;> simp [requestCode, hst]
  · intro herr
    rcases res with e | ⟨status, body⟩
    · rfl
    · by_cases hst : status = 200
      · subst hst
        rcases body with e | data
        · rfl
        · by_cases hv : data.deviceCode = "" ∨ data.userCode = ""
              ∨ data.verificationURI = "" ∨ data.expiresIn ≤ 0
          · simp [requestCode, hv]
          · simp [requestCode, hv] at herr
      · simp [requestCode, hst]
  · intro d hres hdc huc hvu hexp
    subst hres
    have hv : ¬ (d.deviceCode = "" ∨ d.userCode = "" ∨ d.verificationURI = ""
        ∨ d.expiresIn ≤ 0) := by
      push_neg
      exact ⟨hdc, huc, hvu, by omega⟩
    constructor
    · simp only [requestCode, if_neg hv]
      by_cases hi : d.interval = 0 <;> simp [hi]
    · simp only [requestCode, if_neg hv]
      by_cases hi : d.interval = 0 <;> simp [hi]

/-- A well-formed device code response with expires_in 10 seconds, poll
interval 5 seconds. -/
def data10 : DeviceCodeResponse := ⟨"UC-1", "https://verify", "", "DC-1", 10, 5⟩

/-- A well-formed device code response with expires_in 60 seconds, poll
interval 5 seconds. -/
def data60 : DeviceCodeResponse := ⟨"UC-1", "https://verify", "", "DC-1", 60, 5⟩

/-- A device code response arriving with a zero interval. -/
def dataZeroInterval : DeviceCodeResponse := ⟨"UC-1", "https://verify", "", "DC-1", 10, 0⟩

/-- A token response granting an access token valid for one hour. -/
def succBody : PollBody := ⟨"tok-1", "Bearer", "rt-1", 3600, "", ""⟩

/-- The authorization_pending token response. -/
def pendingBody : PollBody := ⟨"", "", "", 0, "authorization_pending", "pending"⟩

/-- A token endpoint that grants on every poll. -/
def succResp : Nat → PollResult := fun _ => .body succBody

/-- A token endpoint that answers authorization_pending forever. -/
def pendingResp : Nat → PollResult := fun _ => .body pendingBody

/-- A token endpoint that answers authorization_pending on the first two
polls and grants on the third. -/
def mixedResp : Nat → PollResult := fun k => if k ≤ 2 then .body pendingBody else .body succBody

/-- Witness for C7 at a concrete good response with a zero interval. -/
theorem requestCode_validation_witness :
    (requestCode (devauthNew "https://t" "https://a" "cid" [])
        (.response 200 (.ok dataZeroInterval))).1.authResp
        = some ⟨"UC-1", "https://verify", "", "DC-1", 10, 5⟩
    ∧ (requestCode (devauthNew "https://t" "https://a" "cid" [])
        (.response 200 (.ok dataZeroInterval))).2.1
        = some ⟨"UC-1", "https://verify", ""⟩ :=
  (requestCode_validation (devauthNew "https://t" "https://a" "cid" [])
      (.response 200 (.ok dataZeroInterval))).2.2 dataZeroInterval rfl
    (by decide) (by decide) (by decide) (by decide)

/-- C4 counterexample: the device code of data10 is issued at time 0
(codeExpiry would be 0 + 10 = 10), but when PollToken is entered at
time 100 — after the user-interaction gap — the code issues its poll
request at time 105, past the claimed codeExpiry deadline: the loop's
deadline is anchored at the PollToken entry time, not at issuance. -/
theorem pollToken_deadline_counterexample :
    ((requestCode (devauthNew "https://t" "https://a" "cid" [])
        (.response 200 (.ok data10))).1).authResp = some data10
    ∧ (pollToken 100 none data10 succResp).2 = [105]
    ∧ 0 + data10.expiresIn < 105 := by
  refine ⟨rfl, ?_, by decide⟩
  decide

/-- Witness for the amended C4 at concrete runs: a granted poll at 105 is
before the poll-start-anchored deadline 100 + 10, and an always-pending
server makes the same call time out. -/
theorem pollToken_deadline_amended_witness :
    ((105 : Int) < 100 + data10.expiresIn
      ∧ ∀ c, (none : Option Int) = some c → (105 : Int) < c)
    ∧ (pollToken 100 none data10 pendingResp).1 = .timeout :=
  ⟨(pollToken_deadline_amended 100 none data10 succResp).1 105 (by decide),
   (pollToken_deadline_amended 100 none data10 pendingResp).2 (fun _ => rfl)⟩

/-- Splitting a shifted range-map of request times at the head. -/
theorem rangeMap_shift (t0 interval : Int) (k n : Nat) :
    (List.range (n + 1)).map (fun i : Nat => t0 + ((k + i : Nat) : Int) * interval)
      = (t0 + (k : Int) * interval)
        :: (List.range n).map (fun i : Nat => t0 + ((k + 1 + i : Nat) : Int) * interval) := by
  rw [List.range_succ_eq_map, List.map_cons, List.map_map]
  congr 1
  refine List.map_congr_left ?_
  intro i _
  simp only [Function.comp_apply]
  have e : k + (i + 1) = k + 1 + i := by omega
  rw [show Nat.succ i = i + 1 from rfl, e]

/-- A run of `m` consecutive authorization_pending responses, each polled
before the deadline, advances the loop by `m` ticks, consuming `m` fuel
and recording the `m` request times. -/
theorem pollFrom_skip (t0 interval dl : Int) (resp : Nat → PollResult) :
    ∀ (m k fuel : Nat), m ≤ fuel →
      (∀ i, i < m → isPending (resp (k + i)) = true) →
      (∀ i : Nat, i < m → t0 + ((k + i : Nat) : Int) * interval < dl) →
      pollFrom t0 interval dl resp k fuel
        = ((pollFrom t0 interval dl resp (k + m) (fuel - m)).1,
           ((List.range m).map (fun i : Nat => t0 + ((k + i : Nat) : Int) * interval))
             ++ (pollFrom t0 interval dl resp (k + m) (fuel - m)).2) := by
  intro m
  induction m with
  | zero =>
    intro k fuel _ _ _
    simp
  | succ n ih =>
    intro k fuel hf hp ht
    obtain ⟨f, rfl⟩ : ∃ f, fuel = f + 1 := ⟨fuel - 1, by omega⟩
    have h0 : isPending (resp k) = true := by simpa using hp 0 (by omega)
    have ht0 : t0 + (k : Int) * interval < dl := by simpa using ht 0 (by omega)
    rcases hr : resp k with e | e | b
    · rw [hr] at h0; simp [isPending] at h0
    · rw [hr] at h0; simp [isPending] at h0
    · rw [hr] at h0
      simp only [isPending, decide_eq_true_eq] at h0
      obtain ⟨hacc, herr⟩ := h0
      have step : pollFrom t0 interval dl resp k (f + 1)
          = ((pollFrom t0 interval dl resp (k + 1) f).1,
             (t0 + (k : Int) * interval) :: (pollFrom t0 interval dl resp (k + 1) f).2) := by
        simp only [pollFrom, hr]
        have hnle : ¬ dl ≤ t0 + (k : Int) * interval := by omega
        simp [hnle, hacc, herr]
      have hpS : ∀ i, i < n → isPending (resp (k + 1 + i)) = true := by
        intro i hi
        have h := hp (i + 1) (by omega)
        have e : k + (i + 1) = k + 1 + i := by omega
        rwa [e] at h
      have htS : ∀ i : Nat, i < n → t0 + ((k + 1 + i : Nat) : Int) * interval < dl := by
        intro i hi
        have h := ht (i + 1) (by omega)
        have e : k + (i + 1) = k + 1 + i := by omega
        rwa [e] at h
      rw [step, ih (k + 1) f (by omega) hpS htS]
      have hidx : k + 1 + n = k + (n + 1) := by omega
      have hfuel2 : f - n = f + 1 - (n + 1) := by omega
      rw [hidx, hfuel2, rangeMap_shift, List.cons_append]

/-- C6: while the token endpoint keeps answering authorization_pending the
loop keeps polling at the stored interval, and the first other response,
polled before the deadline, settles the call: a non-empty access_token
yields the granted token whose expiry is that poll's response time plus
that response's expires_in; any other error value ends the call with the
denial outcome carrying the error description; a pending answer continues
the interval-paced request schedule. -/
theorem pollToken_response_handling (t0 : Int) (callerDl : Option Int)
    (d : DeviceCodeResponse) (resp : Nat → PollResult) (m : Nat) (b : PollBody)
    (hint : 1 ≤ d.interval)
    (hpend : ∀ i, i < m → isPending (resp (1 + i)) = true)
    (hresp : resp (1 + m) = .body b)
    (htick : t0 + ((1 + m : Nat) : Int) * d.interval
        < pollDeadline t0 callerDl d.expiresIn) :
    (b.accessToken ≠ "" →
        pollToken t0 callerDl d resp
          = (.token ⟨b.accessToken, b.tokenType, b.refreshToken,
                some (t0 + ((1 + m : Nat) : Int) * d.interval + b.expiresIn)⟩,
             (List.range (m + 1)).map
               (fun i : Nat => t0 + ((1 + i : Nat) : Int) * d.interval)))
    ∧ (b.accessToken = "" → b.err = "authorization_pending" →
        ∃ rest, (pollToken t0 callerDl d resp).2
          = ((List.range (m + 1)).map
              (fun i : Nat => t0 + ((1 + i : Nat) : Int) * d.interval)) ++ rest)
    ∧ (b.accessToken = "" → b.err ≠ "authorization_pending" →
        pollToken t0 callerDl d resp
          = (.denied b.errDescription,
             (List.range (m + 1)).map
               (fun i : Nat => t0 + ((1 + i : Nat) : Int) * d.interval))) := by
  have hiv0 : (0 : Int) ≤ d.interval := by omega
  set dl := pollDeadline t0 callerDl d.expiresIn with hdldef
  set fuel := (dl - t0).toNat + 1 with hfueldef
  have hmono : ((1 + m : Nat) : Int) ≤ ((1 + m : Nat) : Int) * d.interval := by
    refine le_mul_of_one_le_right ?_ hint
    push_cast
    omega
  have hmfuel : m + 1 ≤ fuel := by
    have h2 : t0 + ((1 + m : Nat) : Int) < dl := by
      have := add_le_add_left hmono t0
      omega
    push_cast at h2
    omega
  have hticks : ∀ i : Nat, i < m → t0 + ((1 + i : Nat) : Int) * d.interval < dl := by
    intro i hi
    have hle : ((1 + i : Nat) : Int) * d.interval
        ≤ ((1 + m : Nat) : Int) * d.interval := by
      refine mul_le_mul_of_nonneg_right ?_ hiv0
      push_cast
      omega
    have := add_le_add_left hle t0
    omega
  have hskip := pollFrom_skip t0 d.interval dl resp m 1 fuel (by omega) hpend hticks
  have hpt : pollToken t0 callerDl d resp
      = ((pollFrom t0 d.interval dl resp (1 + m) (fuel - m)).1,
         ((List.range m).map (fun i : Nat => t0 + ((1 + i : Nat) : Int) * d.interval))
           ++ (pollFrom t0 d.interval dl resp (1 + m) (fuel - m)).2) := by
    have hunfold : pollToken t0 callerDl d resp
        = pollFrom t0 d.interval dl resp 1 fuel := rfl
    rw [hunfold, hskip]
  obtain ⟨f2, hf2⟩ : ∃ f2, fuel - m = f2 + 1 := ⟨fuel - m - 1, by omega⟩
  have hnle : ¬ dl ≤ t0 + ((1 + m : Nat) : Int) * d.interval := not_le.mpr htick
  refine ⟨?_, ?_, ?_⟩
  · intro hacc
    have hland : pollFrom t0 d.interval dl resp (1 + m) (fuel - m)
        = (.token ⟨b.accessToken, b.tokenType, b.refreshToken,
              some (t0 + ((1 + m : Nat) : Int) * d.interval + b.expiresIn)⟩,
           [t0 + ((1 + m : Nat) : Int) * d.interval]) := by
      rw [hf2]
      simp only [pollFrom, hresp]
      rw [if_neg hnle]
      simp [hacc]
    simp only [hpt, hland, List.range_succ, List.map_append, List.map_cons,
      List.map_nil]
  · intro hacc herr
    have hland : (pollFrom t0 d.interval dl resp (1 + m) (fuel - m)).2
        = (t0 + ((1 + m : Nat) : Int) * d.interval)
            :: (pollFrom t0 d.interval dl resp (1 + m + 1) f2).2 := by
      rw [hf2]
      simp only [pollFrom, hresp]
      rw [if_neg hnle]
      simp [hacc, herr]
    refine ⟨(pollFrom t0 d.interval dl resp (1 + m + 1) f2).2, ?_⟩
    simp only [hpt, hland, List.range_succ, List.map_append, List.map_cons,
      List.map_nil, List.append_assoc, List.singleton_append]
  · intro hacc herr
    have hland : pollFrom t0 d.interval dl resp (1 + m) (fuel - m)
        = (.denied b.errDescription, [t0 + ((1 + m : Nat) : Int) * d.interval]) := by
      rw [hf2]
      simp only [pollFrom, hresp]
      rw [if_neg hnle]
      simp [hacc, herr]
    simp only [hpt, hland, List.range_succ, List.map_append, List.map_cons,
      List.map_nil]

/-- Witness for C6: two pending answers then a grant; the token arrives
after three interval-paced polls at 105, 110 and 115 with its expiry
computed from the third response. -/
theorem pollToken_response_handling_witness :
    pollToken 100 none data60 mixedResp
      = (.token ⟨"tok-1", "Bearer", "rt-1", some 3715⟩, [105, 110, 115]) :=
  (pollToken_response_handling 100 none data60 mixedResp 2 succBody
      (by decide) (by decide) (by decide) (by decide)).1 (by decide)

end OToken
